import Mathlib

/-!
# Verification of the claude-agent-monitor Session State Engine

Shallow embedding, in Lean 4, of the parts of the repository
`Yrzhe/claude-agent-monitor` that the verified claims are about:

* `dashboard/src/state.js` — `deriveStatus`, `buildSession`, `loadAllSessions`
* `dashboard/src/notifier.js` — `detectTransitions`
* `dashboard/src/summarizer.js` — `ruleSummary`, `SummaryManager.getSummary`
* `hooks/lib/archiver.js` — `getArchiveBasePath` (config-value resolution),
  `computeArchivePath`, `initArchive`, `resolveArchivePath`, `archiveEvent`
* the relationship resolver — `detectParentChild`

Modelling conventions:
* JavaScript timestamps (ISO strings parsed with `new Date(..).getTime()`)
  are embedded directly as epoch milliseconds (`Int`); dates are derived in
  UTC (the process-local timezone is ambient in the source).
* Absent JSON object fields are `Option.none`; JavaScript string falsiness
  (`x || y`, where `""` is falsy) is modelled by `jsOr`.
* The filesystem effects of the archiver are modelled as explicit state:
  the persisted session-id → path mapping plus the sequence of appends.
* Asynchronous enrichment is modelled by the synchronous decision
  `getSummary` makes: the text it returns, the pending-set update, and a
  Boolean recording whether an outgoing API request was initiated.
-/

/-- One parsed event-log record (`Event` in the spec's data model).
Kind-specific fields that may be absent are `Option`s. -/
structure Event where
  ts : Int
  event : String
  session_id : String
  agent_name : Option String := none
  cwd : Option String := none
  model : Option String := none
  tool_name : Option String := none
  tool_summary : Option String := none
  tool_detail : Option String := none
  deriving Repr, DecidableEq

/-- JavaScript `a || b` on an optional string field: `none` and the empty
string are falsy. -/
def jsOr (a : Option String) (b : String) : String :=
  match a with
  | some s => if s = "" then b else s
  | none => b

/-- JavaScript template-literal interpolation of a possibly-undefined
string (`undefined` prints as `"undefined"`). -/
def jsTemplate (a : Option String) : String :=
  match a with
  | some s => s
  | none => "undefined"

/-- One entry of a session's bounded `recentTools` list. -/
structure ToolItem where
  toolName : String
  toolSummary : String
  toolDetail : String
  ts : Int
  deriving Repr, DecidableEq

/-- The derived `Session` view built by `buildSession`
(`dashboard/src/state.js`).  `cwd`/`model` are `Option`s because the
source copies possibly-undefined fields of the `session_start` event;
`messageCount` is an `Option` because the `state.js` constructor does not
set that field (consumers read it with `|| 0`). -/
structure Session where
  id : String
  name : String
  cwd : Option String
  model : Option String
  status : String
  lastTool : Option String
  recentTools : List ToolItem
  lastEventAt : Int
  toolCount : Nat
  messageCount : Option Nat := none
  deriving Repr, DecidableEq

/-- `STALE_THRESHOLD_MS = 5 * 60 * 1000` from `dashboard/src/state.js`. -/
def STALE_THRESHOLD_MS : Int := 5 * 60 * 1000

/-- `deriveStatus(events, now)` from `dashboard/src/state.js` (lines
35–51): status of a session as a function of its last event and the
elapsed time since it. -/
def deriveStatus (events : List Event) (now : Int) : String :=
  match events.getLast? with
  | none => "unknown"
  | some lastEvent =>
    let elapsed := now - lastEvent.ts
    if lastEvent.event = "session_end" then "ended"
    else if lastEvent.event = "stop" then "idle"
    else if lastEvent.event = "session_start" then
      if elapsed ≥ STALE_THRESHOLD_MS then "stale" else "idle"
    else if lastEvent.event = "tool_use" then
      if elapsed ≥ STALE_THRESHOLD_MS then "stale" else "active"
    else "unknown"

/-- `Array.prototype.slice(-n)`: the last `n` elements of a list. -/
def takeLastN (n : Nat) (l : List α) : List α :=
  l.drop (l.length - n)

/-- `buildSession(events, maxRecentTools)` from `dashboard/src/state.js`
(lines 58–92).  The ambient `Date.now()` is passed explicitly as `now`;
`maxRecentTools = 0` models a falsy (absent) argument, defaulted to 10. -/
def buildSession (events : List Event) (maxRecentTools : Nat) (now : Int) :
    Option Session :=
  match events with
  | [] => none
  | e0 :: _ =>
    let max := if maxRecentTools = 0 then 10 else maxRecentTools
    let startEvent := events.find? (fun e => e.event = "session_start")
    let toolEvents := events.filter (fun e => e.event = "tool_use")
    let lastEvent := (events.getLast?).getD e0
    let lastToolEvent := toolEvents.getLast?
    let recentTools := ((takeLastN max toolEvents).reverse).map (fun e =>
      { toolName := jsOr e.tool_name "unknown"
        toolSummary := jsOr e.tool_summary (jsOr e.tool_name "unknown")
        toolDetail := jsOr e.tool_detail ""
        ts := e.ts : ToolItem })
    some
      { id := e0.session_id
        name := jsOr e0.agent_name "unknown"
        cwd := match startEvent with
          | some se => se.cwd
          | none => some ""
        model := match startEvent with
          | some se => se.model
          | none => some "unknown"
        status := deriveStatus events now
        lastTool := lastToolEvent.map (fun e =>
          jsTemplate e.tool_name ++ " " ++ jsTemplate e.tool_summary)
        recentTools := recentTools
        lastEventAt := lastEvent.ts
        toolCount := toolEvents.length
        messageCount := none }

/-- The ghost-session visibility predicate inlined in `loadAllSessions`
(`dashboard/src/state.js` line 114):
`s.toolCount > 0 || s.status === 'active' || s.status === 'idle'`. -/
def visibleSession (s : Session) : Bool :=
  decide (0 < s.toolCount) || s.status == "active" || s.status == "idle"

/-- Insertion step for sorting sessions by `lastEventAt`, most recent
first (the comparator `(a, b) => b.lastEventAt - a.lastEventAt`). -/
def insertByLastEventAt (s : Session) : List Session → List Session
  | [] => [s]
  | t :: rest =>
    if t.lastEventAt ≤ s.lastEventAt then s :: t :: rest
    else t :: insertByLastEventAt s rest

/-- Sorting by descending `lastEventAt`, modelling the final `.sort` of
`loadAllSessions`.  The claims under verification depend only on which
sessions appear in the result, not on the sort algorithm. -/
def sortByLastEventAtDesc (l : List Session) : List Session :=
  l.foldr insertByLastEventAt []

/-- `loadAllSessions(config)` from `dashboard/src/state.js` (lines
99–116), abstracted over the directory read: `fileEventLists` is the list
of per-file parsed event lists; `maxRecentTools = 0` models an absent
config value (defaulted to 10). -/
def loadAllSessions (fileEventLists : List (List Event)) (maxRecentTools : Nat)
    (now : Int) : List Session :=
  let m := if maxRecentTools = 0 then 10 else maxRecentTools
  let built := (fileEventLists.map (fun evs => buildSession evs m now)).filterMap id
  sortByLastEventAtDesc (built.filter visibleSession)

/-- C1 -- Status derivation is a pure function of the last event's kind and
elapsed time: with `session_end` last the status is `ended` and with `stop`
last it is `idle`, both regardless of elapsed time; with `session_start`
last it is `idle` below 300 s elapsed and `stale` at or above; with
`tool_use` last it is `active` below 300 s elapsed and `stale` at or
above. -/
theorem deriveStatus_of_lastEvent (events : List Event) (e : Event) (now : Int)
    (h : events.getLast? = some e) :
    (e.event = "session_end" → deriveStatus events now = "ended") ∧
    (e.event = "stop" → deriveStatus events now = "idle") ∧
    (e.event = "session_start" →
      deriveStatus events now = if now - e.ts < 300000 then "idle" else "stale") ∧
    (e.event = "tool_use" →
      deriveStatus events now = if now - e.ts < 300000 then "active" else "stale") := by
  unfold deriveStatus
  rw [h]
  simp only [STALE_THRESHOLD_MS]
  refine ⟨?_, ?_, ?_, ?_⟩ <;> intro hk <;> simp [hk]
  · rcases lt_or_le (now - e.ts) 300000 with h1 | h1
    · rw [if_neg (by omega), if_pos h1]
    · rw [if_pos (by omega), if_neg (by omega)]
  · rcases lt_or_le (now - e.ts) 300000 with h1 | h1
    · rw [if_neg (by omega), if_pos h1]
    · rw [if_pos (by omega), if_neg (by omega)]

/-- Witness for `deriveStatus_of_lastEvent` at concrete inputs: a
single-event log ending in `session_end` derives status `ended` even after
a huge elapsed time, and one ending in `tool_use` 400 s ago derives
`stale`. -/
theorem deriveStatus_of_lastEvent_witness :
    deriveStatus [{ ts := 0, event := "session_end", session_id := "s" }] 99999999 = "ended" ∧
    deriveStatus [{ ts := 0, event := "tool_use", session_id := "s" }] 400000 = "stale" := by
  constructor
  · exact (deriveStatus_of_lastEvent
      [{ ts := 0, event := "session_end", session_id := "s" }]
      { ts := 0, event := "session_end", session_id := "s" } 99999999 rfl).1 rfl
  · have h := (deriveStatus_of_lastEvent
      [{ ts := 0, event := "tool_use", session_id := "s" }]
      { ts := 0, event := "tool_use", session_id := "s" } 400000 rfl).2.2.2 rfl
    simpa using h

/-- Membership in `insertByLastEventAt` is membership in the original list
plus the inserted element. -/
theorem mem_insertByLastEventAt (a s : Session) (l : List Session) :
    a ∈ insertByLastEventAt s l ↔ a = s ∨ a ∈ l := by
  induction l with
  | nil => simp [insertByLastEventAt]
  | cons t rest ih =>
    unfold insertByLastEventAt
    by_cases h : t.lastEventAt ≤ s.lastEventAt
    · simp [h]
    · simp only [h, if_false, List.mem_cons, ih]
      tauto

/-- The session sort is membership-preserving. -/
theorem mem_sortByLastEventAtDesc (a : Session) (l : List Session) :
    a ∈ sortByLastEventAtDesc l ↔ a ∈ l := by
  unfold sortByLastEventAtDesc
  induction l with
  | nil => simp
  | cons t rest ih =>
    simp only [List.foldr_cons, List.mem_cons]
    rw [mem_insertByLastEventAt]
    rw [← ih]

/-- C5 -- Visibility filter of `loadAllSessions`: a reconstructed session
appears in the returned visible set exactly when its `toolCount` is
positive or its status is `active` or `idle`; in particular a zero-tool
session with status `stale` or `ended` is excluded and every session with
`toolCount > 0` is included regardless of status. -/
theorem loadAllSessions_visibility (fileEventLists : List (List Event))
    (maxRecentTools : Nat) (now : Int) (s : Session) :
    s ∈ loadAllSessions fileEventLists maxRecentTools now ↔
      (some s ∈ fileEventLists.map (fun evs =>
        buildSession evs (if maxRecentTools = 0 then 10 else maxRecentTools) now)) ∧
      (0 < s.toolCount ∨ s.status = "active" ∨ s.status = "idle") := by
  unfold loadAllSessions
  rw [mem_sortByLastEventAtDesc, List.mem_filter]
  simp only [List.mem_filterMap, id_eq, visibleSession]
  constructor
  · rintro ⟨⟨o, ho, rfl⟩, hvis⟩
    refine ⟨ho, ?_⟩
    simp only [Bool.or_eq_true, decide_eq_true_eq, beq_iff_eq] at hvis
    tauto
  · rintro ⟨hmem, hvis⟩
    refine ⟨⟨some s, hmem, rfl⟩, ?_⟩
    simp only [Bool.or_eq_true, decide_eq_true_eq, beq_iff_eq]
    tauto

/-- C7 -- An id with zero events yields no `Session` object at all
(`buildSession` returns `none`, not a placeholder), and an empty event
list contributes nothing to the visible session set returned by
`loadAllSessions`. -/
theorem buildSession_empty_none :
    (∀ maxRecentTools now, buildSession [] maxRecentTools now = none) ∧
    (∀ rest maxRecentTools now,
      loadAllSessions ([] :: rest) maxRecentTools now =
        loadAllSessions rest maxRecentTools now) := by
  constructor
  · intro maxRecentTools now
    rfl
  · intro rest maxRecentTools now
    unfold loadAllSessions
    simp [buildSession]

/-- One detected transition (`{type, session, detail?}` objects pushed by
`detectTransitions` in `dashboard/src/notifier.js`). -/
structure Transition where
  type : String
  session : Session
  detail : Option String := none
  deriving Repr, DecidableEq

/-- `Map` lookup for the `prevMap` built in `detectTransitions`: the map
is populated by iterating `prev`, so a later entry with the same id
overwrites an earlier one. -/
def prevMapGet (prev : List Session) (id : String) : Option Session :=
  prev.foldl (fun acc s => if s.id = id then some s else acc) none

/-- The transitions `detectTransitions` pushes for one current session
`cur` whose id was found in the previous snapshot as `old`
(`dashboard/src/notifier.js` lines 56–85), in push order. -/
def sessionTransitions (old cur : Session) : List Transition :=
  (if (old.status = "active" ∨ old.status = "idle") ∧ cur.status = "ended" then
    [{ type := "session_end", session := cur }] else [])
  ++ (if old.status = "active" ∧ cur.status = "idle" then
    [{ type := "became_idle", session := cur }] else [])
  ++ (if old.status = "active" ∧ cur.status = "stale" then
    [{ type := "became_stale", session := cur }] else [])
  ++ (if old.toolCount < cur.toolCount then
    [{ type := "new_tool_activity", session := cur,
       detail := some (match cur.recentTools with
         | t :: _ => t.toolName
         | [] => "tool") }] else [])
  ++ (if old.messageCount.getD 0 < cur.messageCount.getD 0 then
    [{ type := "new_messages", session := cur }] else [])

/-- `detectTransitions(prev, current)` from `dashboard/src/notifier.js`
(lines 43–89).  A `null`/`undefined` snapshot argument is `none`; a
current session whose id is absent from the previous snapshot is skipped
(`if (!old) continue`). -/
def detectTransitions (prev current : Option (List Session)) : List Transition :=
  match prev, current with
  | some prev, some current =>
    current.flatMap (fun cur =>
      match prevMapGet prev cur.id with
      | none => []
      | some old => sessionTransitions old cur)
  | _, _ => []

/-- Concrete previous snapshot of the C4 scenario:
`{id: 1, status: active, toolCount: 3}`. -/
def c4PrevSession : Session :=
  { id := "1", name := "agent", cwd := some "/p", model := some "m",
    status := "active", lastTool := none, recentTools := [],
    lastEventAt := 0, toolCount := 3 }

/-- Concrete current snapshot of the C4 scenario:
`{id: 1, status: active, toolCount: 5}`, whose most recent tool is an
`Edit`. -/
def c4CurrSession : Session :=
  { id := "1", name := "agent", cwd := some "/p", model := some "m",
    status := "active", lastTool := some "Edit file.ts",
    recentTools := [{ toolName := "Edit", toolSummary := "file.ts",
                      toolDetail := "", ts := 5 }],
    lastEventAt := 5, toolCount := 5 }

/-- C4 -- On `prev = [{id:1, status:active, toolCount:3}]` and
`curr = [{id:1, status:active, toolCount:5}]`, `detectTransitions` yields
exactly one transition, of type `new_tool_activity`, and no status-change
transition; in general, a `toolCount` increase for a session found in both
snapshots yields a `new_tool_activity` transition whose detail is the
first entry of the most-recent-first `recentTools` list. -/
theorem detectTransitions_toolCount_increase :
    detectTransitions (some [c4PrevSession]) (some [c4CurrSession]) =
      [{ type := "new_tool_activity", session := c4CurrSession,
         detail := some "Edit" }] ∧
    (∀ (prev current : List Session) (cur old : Session) (t : ToolItem)
      (rest : List ToolItem),
      cur ∈ current → prevMapGet prev cur.id = some old →
      cur.recentTools = t :: rest → old.toolCount < cur.toolCount →
      ({ type := "new_tool_activity", session := cur,
         detail := some t.toolName } : Transition) ∈
        detectTransitions (some prev) (some current)) := by
  constructor
  · rfl
  · intro prev current cur old t rest hmem hfound hrt hlt
    unfold detectTransitions
    rw [List.mem_flatMap]
    refine ⟨cur, hmem, ?_⟩
    rw [hfound]
    unfold sessionTransitions
    rw [hrt]
    simp only [List.mem_append]
    refine Or.inl (Or.inr ?_)
    rw [if_pos hlt]
    simp

/-- Witness for `detectTransitions_toolCount_increase`: the general part
applied to the concrete C4 scenario. -/
theorem detectTransitions_toolCount_increase_witness :
    ({ type := "new_tool_activity", session := c4CurrSession,
       detail := some "Edit" } : Transition) ∈
      detectTransitions (some [c4PrevSession]) (some [c4CurrSession]) := by
  refine detectTransitions_toolCount_increase.2 [c4PrevSession] [c4CurrSession]
    c4CurrSession c4PrevSession
    { toolName := "Edit", toolSummary := "file.ts", toolDetail := "", ts := 5 }
    [] ?_ ?_ ?_ ?_
  · simp
  · rfl
  · rfl
  · decide

/-- A successful `prevMap` lookup returns a member of the previous
snapshot bearing the looked-up id. -/
theorem prevMapGet_aux (l : List Session) (id : String) (acc : Option Session)
    (old : Session)
    (h : l.foldl (fun acc s => if s.id = id then some s else acc) acc = some old) :
    (old ∈ l ∧ old.id = id) ∨ acc = some old := by
  induction l generalizing acc with
  | nil => exact Or.inr h
  | cons a rest ih =>
    simp only [List.foldl_cons] at h
    rcases ih _ h with h1 | h1
    · exact Or.inl ⟨List.mem_cons_of_mem _ h1.1, h1.2⟩
    · by_cases ha : a.id = id
      · rw [if_pos ha] at h1
        injection h1 with h1
        subst h1
        exact Or.inl ⟨List.mem_cons_self _ _, ha⟩
      · rw [if_neg ha] at h1
        exact Or.inr h1

/-- Every transition pushed for `(old, cur)` carries `cur` itself as its
session. -/
theorem sessionTransitions_session_eq (old cur : Session) (t : Transition)
    (h : t ∈ sessionTransitions old cur) : t.session = cur := by
  unfold sessionTransitions at h
  simp only [List.mem_append] at h
  rcases h with ((((h | h) | h) | h) | h) <;>
    · split at h <;> simp_all

/-- C10 -- `detectTransitions` is total over missing inputs: a
`null`/`undefined` previous or current snapshot yields the empty list, and
every produced transition belongs to a session whose id was present in the
previous snapshot — a newly appeared session never produces a
notification event. -/
theorem detectTransitions_total (p c : Option (List Session))
    (prev current : List Session) (t : Transition)
    (h : t ∈ detectTransitions (some prev) (some current)) :
    detectTransitions none c = [] ∧
    detectTransitions p none = [] ∧
    ∃ old ∈ prev, old.id = t.session.id := by
  refine ⟨rfl, by cases p <;> rfl, ?_⟩
  unfold detectTransitions at h
  rw [List.mem_flatMap] at h
  obtain ⟨cur, _, hcur⟩ := h
  rcases hfind : prevMapGet prev cur.id with _ | old
  · rw [hfind] at hcur
    simp at hcur
  · rw [hfind] at hcur
    have hsession := sessionTransitions_session_eq old cur t hcur
    have hold : old ∈ prev ∧ old.id = cur.id := by
      rcases prevMapGet_aux prev cur.id none old hfind with h1 | h1
      · exact h1
      · simp at h1
    exact ⟨old, hold.1, by rw [hold.2, hsession]⟩

/-- Previous-snapshot session for the C10 witness scenario. -/
def c10PrevSession : Session :=
  { id := "s7", name := "agent", cwd := some "/p", model := some "m",
    status := "active", lastTool := none, recentTools := [],
    lastEventAt := 0, toolCount := 1 }

/-- Current-snapshot session for the C10 witness scenario. -/
def c10CurrSession : Session :=
  { id := "s7", name := "agent", cwd := some "/p", model := some "m",
    status := "active", lastTool := some "Bash npm test",
    recentTools := [{ toolName := "Bash", toolSummary := "npm test",
                      toolDetail := "", ts := 9 }],
    lastEventAt := 9, toolCount := 2 }

/-- Witness for `detectTransitions_total` at a concrete transition: the
produced `new_tool_activity` transition's session id is found in the
previous snapshot. -/
theorem detectTransitions_total_witness :
    detectTransitions none (some [c10CurrSession]) = [] ∧
    detectTransitions (some [c10PrevSession]) none = [] ∧
    ∃ old ∈ [c10PrevSession],
      old.id = ({ type := "new_tool_activity", session := c10CurrSession,
                  detail := some "Bash" } : Transition).session.id := by
  exact detectTransitions_total (some [c10PrevSession]) (some [c10CurrSession])
    [c10PrevSession] [c10CurrSession]
    { type := "new_tool_activity", session := c10CurrSession,
      detail := some "Bash" }
    (by decide)

/-- `[...new Set(xs)]`: deduplication preserving first-occurrence order. -/
def dedupFirst (l : List String) : List String :=
  l.foldl (fun acc x => if acc.contains x then acc else acc ++ [x]) []

/-- `charAt(0).toUpperCase() + slice(1)`: capitalize the first character. -/
def capFirst (s : String) : String :=
  match s.data with
  | [] => s
  | c :: cs => String.mk (c.toUpper :: cs)

/-- `ruleSummary(session)` from `dashboard/src/summarizer.js` (lines
14–87): the deterministic rule-based summary composed from the grouped
recent tool events. -/
def ruleSummary (s : Session) : String :=
  let tools := s.recentTools
  if tools.isEmpty then
    if s.status = "idle" then "Waiting for input"
    else if s.status = "stale" then "Inactive for 5+ minutes"
    else if s.status = "ended" then "Session ended"
    else "Starting up"
  else
    let group := fun (name : String) => tools.filter (fun t => t.toolName = name)
    let editFiles := (group "Edit").map (·.toolSummary)
    let writeFiles := (group "Write").map (·.toolSummary)
    let readFiles := (group "Read").map (·.toolSummary)
    let allEditedFiles := dedupFirst (editFiles ++ writeFiles)
    let parts : List String := []
    let parts := if 0 < allEditedFiles.length then
        let fileList := String.intercalate ", " (allEditedFiles.take 3)
        let extra := if 3 < allEditedFiles.length then
            " +" ++ toString (allEditedFiles.length - 3) else ""
        parts ++ ["Editing " ++ toString allEditedFiles.length ++ " file" ++
          (if 1 < allEditedFiles.length then "s" else "") ++
          " (" ++ fileList ++ extra ++ ")"]
      else parts
    let parts := if 0 < readFiles.length ∧ allEditedFiles.length = 0 then
        parts ++ ["Reading " ++
          String.intercalate ", " ((dedupFirst readFiles).take 3)]
      else parts
    let bashN := (group "Bash").length
    let parts := if 0 < bashN then
        parts ++ ["ran " ++ toString bashN ++ " command" ++
          (if 1 < bashN then "s" else "")]
      else parts
    let searches := (group "Grep").length + (group "Glob").length
    let parts := if 0 < searches then
        parts ++ [toString searches ++ " search" ++
          (if 1 < searches then "es" else "")]
      else parts
    let tasksN := (group "Task").length
    let parts := if 0 < tasksN then
        parts ++ [toString tasksN ++ " sub-agent" ++
          (if 1 < tasksN then "s" else "")]
      else parts
    let webOps := (group "WebSearch").length + (group "WebFetch").length
    let parts := if 0 < webOps then
        parts ++ [toString webOps ++ " web request" ++
          (if 1 < webOps then "s" else "")]
      else parts
    if parts.isEmpty then
      "Using " ++ String.intercalate ", " (dedupFirst (tools.map (·.toolName)))
    else capFirst (String.intercalate ", " parts)

/-- One cached summary (`this._cache[id] = { text, toolCount, ts }` in
`SummaryManager`).  Note the entry records only the `toolCount` the
summary was computed at — not the `messageCount`. -/
structure SummaryCacheEntry where
  text : String
  toolCount : Nat
  ts : Int
  deriving Repr, DecidableEq

/-- Lookup of `this._cache[id]`. -/
def cacheGet (cache : List (String × SummaryCacheEntry)) (id : String) :
    Option SummaryCacheEntry :=
  (cache.find? (fun p => p.1 = id)).map (·.2)

/-- `DEBOUNCE_MS = 10000` from `dashboard/src/summarizer.js`. -/
def DEBOUNCE_MS : Int := 10000

/-- `SummaryManager.getSummary(session)` from `dashboard/src/summarizer.js`
(lines 230–252), with the manager's mutable state passed explicitly:
`apiKey` is `config.apiKey` (empty string = not configured), `cache` is
`this._cache`, `pending` is `this._pending`, `now` is `Date.now()`.
Returns the synchronously produced text, the updated pending set, and
whether an asynchronous API refresh (`this._refreshSummary`, one network
request) was initiated. -/
def getSummary (apiKey : String) (cache : List (String × SummaryCacheEntry))
    (pending : List String) (s : Session) (now : Int) :
    String × List String × Bool :=
  match cacheGet cache s.id with
  | some cached =>
    if cached.toolCount = s.toolCount then (cached.text, pending, false)
    else
      let trigger := apiKey != "" && !(pending.contains s.id) &&
        decide (DEBOUNCE_MS ≤ now - cached.ts)
      let pending' := if trigger then s.id :: pending else pending
      (if cached.text != "" then cached.text else ruleSummary s, pending', trigger)
  | none =>
    let trigger := apiKey != "" && !(pending.contains s.id)
    let pending' := if trigger then s.id :: pending else pending
    (ruleSummary s, pending', trigger)

/-- C8 -- With no enrichment API key configured (`config.apiKey` empty),
`getSummary` never initiates a network call and leaves the pending set
unchanged, and for a session with no cache entry it returns exactly the
deterministic rule-based summary. -/
theorem getSummary_no_apiKey (cache : List (String × SummaryCacheEntry))
    (pending : List String) (s : Session) (now : Int)
    (hfresh : cacheGet cache s.id = none) :
    (getSummary "" cache pending s now).2.2 = false ∧
    (getSummary "" cache pending s now).2.1 = pending ∧
    (getSummary "" cache pending s now).1 = ruleSummary s := by
  unfold getSummary
  rw [hfresh]
  simp

/-- Witness for `getSummary_no_apiKey`: a freshly reconstructed session
(empty cache) with no key returns the rule-based text, which for one
recent `Edit` of `auth.ts` evaluates to `Editing 1 file (auth.ts)`. -/
theorem getSummary_no_apiKey_witness :
    (getSummary "" [] []
      { id := "s1", name := "agent", cwd := some "/p", model := some "m",
        status := "active", lastTool := some "Edit auth.ts",
        recentTools := [{ toolName := "Edit", toolSummary := "auth.ts",
                          toolDetail := "", ts := 0 }],
        lastEventAt := 0, toolCount := 1 } 1000).1 = "Editing 1 file (auth.ts)" ∧
    (getSummary "" [] []
      { id := "s1", name := "agent", cwd := some "/p", model := some "m",
        status := "active", lastTool := some "Edit auth.ts",
        recentTools := [{ toolName := "Edit", toolSummary := "auth.ts",
                          toolDetail := "", ts := 0 }],
        lastEventAt := 0, toolCount := 1 } 1000).2.2 = false := by
  have h := getSummary_no_apiKey [] []
    { id := "s1", name := "agent", cwd := some "/p", model := some "m",
      status := "active", lastTool := some "Edit auth.ts",
      recentTools := [{ toolName := "Edit", toolSummary := "auth.ts",
                        toolDetail := "", ts := 0 }],
      lastEventAt := 0, toolCount := 1 } 1000 rfl
  exact ⟨h.2.2.trans (by decide), h.1⟩

/-- The session of the C3 failing scenario after new conversation
messages arrived: same id and `toolCount` as when the cached summary was
computed, but `messageCount` has changed (2 → 9). -/
def c3Session : Session :=
  { id := "s1", name := "agent", cwd := some "/p", model := some "m",
    status := "active", lastTool := some "Edit new.ts",
    recentTools := [{ toolName := "Edit", toolSummary := "new.ts",
                      toolDetail := "", ts := 0 }],
    lastEventAt := 0, toolCount := 3, messageCount := some 9 }

/-- C3 -- Cache validity in `SummaryManager.getSummary` consults only
`toolCount`, never `messageCount`: the function's entire result is
invariant under any change of the session's `messageCount` (first
conjunct, so a `messageCount` change can never invalidate a cache entry),
and concretely a cached summary computed before new conversation messages
arrived is still returned as valid — with no refresh triggered — for a
session whose `messageCount` has since changed but whose `toolCount` has
not (second and third conjuncts).  This contradicts the claim that a
change of either field invalidates the cached value. -/
theorem getSummary_ignores_messageCount :
    (∀ (apiKey : String) (cache : List (String × SummaryCacheEntry))
      (pending : List String) (s : Session) (now : Int) (mc : Option Nat),
      getSummary apiKey cache pending { s with messageCount := mc } now =
        getSummary apiKey cache pending s now) ∧
    (getSummary "key" [("s1", { text := "old summary", toolCount := 3, ts := 0 })]
      [] c3Session 999999).1 = "old summary" ∧
    (getSummary "key" [("s1", { text := "old summary", toolCount := 3, ts := 0 })]
      [] c3Session 999999).2.2 = false := by
  refine ⟨?_, by decide, by decide⟩
  intro apiKey cache pending s now mc
  rfl

/-- The single-quote character (code 39). -/
def squote : Char := Char.ofNat 39

/-- The double-quote character (code 34). -/
def dquote : Char := Char.ofNat 34

/-- `String.prototype.trim()` on the character sequence of a string:
whitespace stripped from both ends. -/
def jsTrim (l : List Char) : List Char :=
  ((l.dropWhile Char.isWhitespace).reverse.dropWhile Char.isWhitespace).reverse

/-- `String.prototype.startsWith(c)` for a one-character prefix. -/
def startsWithChar (c : Char) : List Char → Bool
  | [] => false
  | a :: _ => a == c

/-- `String.prototype.endsWith(c)` for a one-character suffix. -/
def endsWithChar (c : Char) (l : List Char) : Bool :=
  l.getLast? == some c

/-- The wrapping-quote test of `getArchiveBasePath`
(`hooks/lib/archiver.js` lines 21–24):
`(startsWith(sq) && endsWith(sq)) || (startsWith(dq) && endsWith(dq))`. -/
def quoteWrapped (l : List Char) : Bool :=
  (startsWithChar squote l && endsWithChar squote l) ||
  (startsWithChar dquote l && endsWithChar dquote l)

/-- `path.join(home, rest)` as used for the leading-`~` expansion
(segment concatenation; dot-segment normalization is not exercised by the
claims). -/
def joinHomeChars (home rest : List Char) : List Char :=
  if rest = [] then home
  else if startsWithChar '/' rest then home ++ rest
  else home ++ '/' :: rest

/-- The configured-value resolution of `getArchiveBasePath`
(`hooks/lib/archiver.js` lines 14–35), on the character sequence of the
configured `archivePath` string (`raw`): trim; empty means unconfigured;
strip one pair of matching wrapping quotes; expand a leading `~` against
the home directory. -/
def resolveArchiveConfigValue (raw home : List Char) : List Char :=
  let archivePath := jsTrim raw
  if archivePath = [] then []
  else
    let stripped :=
      if quoteWrapped archivePath then (archivePath.drop 1).dropLast
      else archivePath
    if startsWithChar '~' stripped then joinHomeChars home (stripped.drop 1)
    else stripped

/-- Trimming fixes a sequence delimited on both ends by the same
non-whitespace character. -/
theorem jsTrim_sandwich (c : Char) (s : List Char)
    (hc : c.isWhitespace = false) :
    jsTrim (c :: s ++ [c]) = c :: s ++ [c] := by
  unfold jsTrim
  simp only [List.cons_append]
  have h1 : List.dropWhile Char.isWhitespace (c :: (s ++ [c])) =
      c :: (s ++ [c]) := by
    rw [List.dropWhile_cons, hc]
    simp
  rw [h1]
  have h2 : (c :: (s ++ [c])).reverse = c :: (s.reverse ++ [c]) := by
    simp
  rw [h2]
  have h3 : List.dropWhile Char.isWhitespace (c :: (s.reverse ++ [c])) =
      c :: (s.reverse ++ [c]) := by
    rw [List.dropWhile_cons, hc]
    simp
  rw [h3]
  simp

/-- A sequence delimited on both ends by `c` ends with `c`. -/
theorem endsWithChar_sandwich (c : Char) (s : List Char) :
    endsWithChar c (c :: s ++ [c]) = true := by
  unfold endsWithChar
  rw [show c :: s ++ [c] = (c :: s) ++ [c] from rfl, List.getLast?_concat]
  simp

/-- Resolution of a value wrapped in one further quote character strips
exactly that pair, provided the wrapped value itself was trimmed and not
already quote-wrapped. -/
theorem resolveArchiveConfigValue_wrap (c : Char) (s home : List Char)
    (hc : c.isWhitespace = false)
    (htrim : jsTrim s = s) (hq : quoteWrapped s = false)
    (hwrap : quoteWrapped (c :: s ++ [c]) = true) :
    resolveArchiveConfigValue (c :: s ++ [c]) home =
      resolveArchiveConfigValue s home := by
  unfold resolveArchiveConfigValue
  rw [jsTrim_sandwich c s hc, htrim]
  rw [if_neg (by simp), hwrap]
  simp only [if_true]
  have hstrip : ((c :: s ++ [c]).drop 1).dropLast = s := by
    rw [show (c :: s ++ [c]).drop 1 = s ++ [c] from rfl]
    exact List.dropLast_concat
  rw [hstrip]
  by_cases hs : s = []
  · subst hs
    simp [startsWithChar, joinHomeChars]
  · rw [if_neg hs, hq]
    simp

/-- C6 -- corrected form of the quote-stripping idempotence claim: for
every configured string that is already trimmed and is not itself
wrapped in matching quote characters, wrapping it in single or double
quotes resolves to exactly the same base path as the unwrapped value.
(The unrestricted claim is false: stripping is applied only once, so a
value already wrapped in quotes changes meaning when wrapped again —
see the counterexample theorem.) -/
theorem resolveArchiveConfigValue_quoteWrap_invariant (s home : List Char)
    (htrim : jsTrim s = s) (hq : quoteWrapped s = false) :
    resolveArchiveConfigValue (squote :: s ++ [squote]) home =
      resolveArchiveConfigValue s home ∧
    resolveArchiveConfigValue (dquote :: s ++ [dquote]) home =
      resolveArchiveConfigValue s home := by
  constructor
  · refine resolveArchiveConfigValue_wrap squote s home (by decide) htrim hq ?_
    unfold quoteWrapped
    rw [endsWithChar_sandwich]
    simp [startsWithChar]
  · refine resolveArchiveConfigValue_wrap dquote s home (by decide) htrim hq ?_
    unfold quoteWrapped
    rw [endsWithChar_sandwich]
    simp [startsWithChar]

/-- Witness for `resolveArchiveConfigValue_quoteWrap_invariant`: the
spec's concrete instance — `/tmp/archive` wrapped in single quotes
resolves to the same base path, namely `/tmp/archive`, as the unquoted
value. -/
theorem resolveArchiveConfigValue_quoteWrap_invariant_witness :
    resolveArchiveConfigValue
      (squote :: "/tmp/archive".data ++ [squote]) "/home/u".data =
      resolveArchiveConfigValue "/tmp/archive".data "/home/u".data ∧
    resolveArchiveConfigValue "/tmp/archive".data "/home/u".data =
      "/tmp/archive".data := by
  refine ⟨(resolveArchiveConfigValue_quoteWrap_invariant "/tmp/archive".data
    "/home/u".data (by decide) (by decide)).1, by decide⟩

/-- C6 counterexample -- resolving a quote-wrapped value is NOT always the
same as resolving the value itself: a configured value that is already
single-quote-wrapped (here the three characters `quote a quote`) resolves
to `a`, but wrapping it in one more pair of quotes resolves to
`quote a quote`, because the stripping step removes exactly one pair. -/
theorem resolveArchiveConfigValue_quoteWrap_counterexample :
    resolveArchiveConfigValue
      (squote :: [squote, 'a', squote] ++ [squote]) "/home/u".data ≠
      resolveArchiveConfigValue [squote, 'a', squote] "/home/u".data := by
  decide

/-- `String(n).padStart(2, 0-char)` for month and day numbers. -/
def pad2 (n : Nat) : String :=
  if n < 10 then "0" ++ toString n else toString n

/-- The UTC calendar date `(year, month, day)` of an epoch-millisecond
timestamp (what `getFullYear`/`getMonth`/`getDate` of `new Date(ts)`
compute, with the ambient timezone taken as UTC); days-to-civil
conversion for dates from 1970 on. -/
def dateOfMs (ms : Nat) : Nat × Nat × Nat :=
  let days := ms / 86400000
  let z := days + 719468
  let era := z / 146097
  let doe := z % 146097
  let yoe := (doe - doe / 1460 + doe / 36524 - doe / 146096) / 365
  let y := yoe + era * 400
  let doy := doe - (365 * yoe + yoe / 4 - yoe / 100)
  let mp := (5 * doy + 2) / 153
  let d := doy - (153 * mp + 2) / 5 + 1
  let m := if mp < 10 then mp + 3 else mp - 9
  (if m ≤ 2 then y + 1 else y, m, d)

/-- `computeArchivePath(basePath, sessionId, date)` from
`hooks/lib/archiver.js` (lines 45–53):
`<basePath>/YYYY/MM/YYYY-MM-DD-<short-session-id>.jsonl`, the short id
being the first 8 characters of the session id with dashes removed. -/
def computeArchivePath (basePath sessionId : String) (date : Nat × Nat × Nat) :
    String :=
  let yyyy := toString date.1
  let mm := pad2 date.2.1
  let dd := pad2 date.2.2
  let shortId := String.mk ((sessionId.data.filter (fun c => c ≠ '-')).take 8)
  let filename := yyyy ++ "-" ++ mm ++ "-" ++ dd ++ "-" ++ shortId ++ ".jsonl"
  basePath ++ "/" ++ yyyy ++ "/" ++ mm ++ "/" ++ filename

/-- One line appended to an archive file: either the `archive_metadata`
record written by `initArchive`, or an archived event. -/
inductive ArchiveEntry where
  | metadata (ts : Int) (session_id : String) (agent_name : String)
      (model : String) (cwd : String) (archive_version : Nat)
  | event (e : Event)
  deriving Repr, DecidableEq

/-- The filesystem state the archiver manipulates: the persisted
`archive-map.json` contents (`map`) and the ordered sequence of appends
to archive files (`files`, as `(path, entry)` pairs). -/
structure ArchiveState where
  map : List (String × String)
  files : List (String × ArchiveEntry)
  deriving Repr, DecidableEq

/-- `appendToArchive(filePath, entry)`: one JSONL append. -/
def appendToArchive (filePath : String) (entry : ArchiveEntry)
    (st : ArchiveState) : ArchiveState :=
  { st with files := st.files ++ [(filePath, entry)] }

/-- `map[sessionId] || null`: lookup in the loaded archive mapping. -/
def mapGetPath (m : List (String × String)) (sessionId : String) :
    Option String :=
  (m.find? (fun p => p.1 = sessionId)).map (·.2)

/-- `{ ...map, [sessionId]: filePath }`: object-spread update of the
mapping — an existing key is overwritten in place, a new key appended. -/
def assocSet (m : List (String × String)) (k v : String) :
    List (String × String) :=
  if m.any (fun p => p.1 = k) then
    m.map (fun p => if p.1 = k then (k, v) else p)
  else m ++ [(k, v)]

/-- `initArchive(basePath, sessionStartEvent)` from
`hooks/lib/archiver.js` (lines 106–134): computes the archive path ONCE
from the session_start event's own timestamp (`new
Date(sessionStartEvent.ts)` — there is no use of the current time),
appends the metadata record and the event, then re-reads the mapping and
saves it with the session id bound to that path. -/
def initArchive (basePath : String) (sessionStartEvent : Event)
    (st : ArchiveState) : ArchiveState :=
  if basePath = "" then st
  else
    let sessionId := sessionStartEvent.session_id
    let filePath := computeArchivePath basePath sessionId
      (dateOfMs sessionStartEvent.ts.toNat)
    let st1 := appendToArchive filePath
      (ArchiveEntry.metadata sessionStartEvent.ts sessionId
        (jsOr sessionStartEvent.agent_name "")
        (jsOr sessionStartEvent.model "unknown")
        (jsOr sessionStartEvent.cwd "") 1) st
    let st2 := appendToArchive filePath (ArchiveEntry.event sessionStartEvent) st1
    { st2 with map := assocSet st2.map sessionId filePath }

/-- `resolveArchivePath(basePath, sessionId)` from `hooks/lib/archiver.js`
(lines 143–146): resolves through the persisted mapping only; `basePath`
is unused (kept for API consistency, as in the source). -/
def resolveArchivePath (basePath : String) (sessionId : String)
    (st : ArchiveState) : Option String :=
  mapGetPath st.map sessionId

/-- `archiveEvent(sessionId, event)` from `hooks/lib/archiver.js` (lines
155–163): `basePathNow` is the result of `getArchiveBasePath()` at call
time; the target file comes from the mapping, never from the current
date. -/
def archiveEvent (basePathNow : String) (sessionId : String) (ev : Event)
    (st : ArchiveState) : ArchiveState :=
  if basePathNow = "" then st
  else
    match resolveArchivePath basePathNow sessionId st with
    | none => st
    | some filePath => appendToArchive filePath (ArchiveEntry.event ev) st

/-- An object-spread update binds the updated key to the new value. -/
theorem mapGetPath_assocSet (m : List (String × String)) (k v : String) :
    mapGetPath (assocSet m k v) k = some v := by
  unfold assocSet mapGetPath
  by_cases h : m.any (fun p => p.1 = k)
  · rw [if_pos h]
    induction m with
    | nil => simp at h
    | cons a rest ih =>
      by_cases ha : a.1 = k
      · simp [List.find?, ha]
      · simp only [List.any_cons, Bool.or_eq_true, decide_eq_true_eq] at h
        rcases h with h | h
        · exact absurd h ha
        · simp only [List.map_cons, if_neg ha, List.find?]
          rw [show (decide (a.1 = k)) = false from by simp [ha]]
          exact ih (by simp [h])
  · rw [if_neg h]
    induction m with
    | nil => simp [List.find?]
    | cons a rest ih =>
      simp only [List.any_cons, Bool.or_eq_true, decide_eq_true_eq, not_or] at h
      simp only [List.cons_append, List.find?]
      rw [show (decide (a.1 = k)) = false from by simp [h.1]]
      exact ih (by simp [h.2])

/-- C2 -- An archive file path, once assigned to a session id, never
changes: `initArchive` binds the id to the path computed from the
session_start event's own timestamp (not from any current time, which it
does not even consult), and every subsequent `archiveEvent` — whatever
base path the configuration resolves to at that later moment — appends
to exactly the file recorded in the persisted mapping. -/
theorem archivePath_stable (basePath basePathNow : String)
    (startEvent laterEvent : Event) (st : ArchiveState)
    (hbp : basePath ≠ "") (hbp2 : basePathNow ≠ "") :
    mapGetPath (initArchive basePath startEvent st).map
        startEvent.session_id =
      some (computeArchivePath basePath startEvent.session_id
        (dateOfMs startEvent.ts.toNat)) ∧
    archiveEvent basePathNow startEvent.session_id laterEvent
        (initArchive basePath startEvent st) =
      appendToArchive
        (computeArchivePath basePath startEvent.session_id
          (dateOfMs startEvent.ts.toNat))
        (ArchiveEntry.event laterEvent)
        (initArchive basePath startEvent st) := by
  have h1 : mapGetPath (initArchive basePath startEvent st).map
      startEvent.session_id =
      some (computeArchivePath basePath startEvent.session_id
        (dateOfMs startEvent.ts.toNat)) := by
    unfold initArchive
    rw [if_neg hbp]
    exact mapGetPath_assocSet _ _ _
  refine ⟨h1, ?_⟩
  unfold archiveEvent resolveArchivePath
  rw [if_neg hbp2, h1]

/-- The `session_start` event of the cross-midnight scenario:
2026-02-09T23:58:00Z (epoch ms 1770681480000). -/
def c2StartEvent : Event :=
  { ts := 1770681480000, event := "session_start",
    session_id := "abcd1234-ef56", agent_name := some "swift-falcon",
    cwd := some "/p", model := some "m" }

/-- A `tool_use` event of the same session four minutes later, already on
the next UTC day: 2026-02-10T00:02:00Z (epoch ms 1770681720000). -/
def c2LaterEvent : Event :=
  { ts := 1770681720000, event := "tool_use",
    session_id := "abcd1234-ef56", tool_name := some "Edit",
    tool_summary := some "auth.ts" }

/-- Witness for `archivePath_stable`: the spec's cross-midnight instance.
The two timestamps fall on different UTC dates (2026-02-09 vs
2026-02-10), yet the append at 00:02 on the 10th goes to the file dated
2026-02-09 that `initArchive` bound in the mapping. -/
theorem archivePath_stable_witness :
    dateOfMs 1770681480000 = (2026, 2, 9) ∧
    dateOfMs 1770681720000 = (2026, 2, 10) ∧
    mapGetPath (initArchive "/arch" c2StartEvent ⟨[], []⟩).map
        "abcd1234-ef56" =
      some "/arch/2026/02/2026-02-09-abcd1234.jsonl" ∧
    archiveEvent "/arch" "abcd1234-ef56" c2LaterEvent
        (initArchive "/arch" c2StartEvent ⟨[], []⟩) =
      appendToArchive "/arch/2026/02/2026-02-09-abcd1234.jsonl"
        (ArchiveEntry.event c2LaterEvent)
        (initArchive "/arch" c2StartEvent ⟨[], []⟩) := by
  have h := archivePath_stable "/arch" "/arch" c2StartEvent c2LaterEvent
    ⟨[], []⟩ (by decide) (by decide)
  have hpath : computeArchivePath "/arch" c2StartEvent.session_id
      (dateOfMs c2StartEvent.ts.toNat) =
      "/arch/2026/02/2026-02-09-abcd1234.jsonl" := by decide
  refine ⟨by decide, by decide, ?_, ?_⟩
  · have h1 := h.1
    rw [hpath] at h1
    exact h1
  · have h2 := h.2
    rw [hpath] at h2
    exact h2

/-- The timestamps of a session's recorded `Task` (sub-agent spawn) tool
calls (`detectParentChild`, collection phase). -/
def taskCallTs (s : Session) : List Int :=
  (s.recentTools.filter (fun t => t.toolName = "Task")).map (·.ts)

/-- The `taskCalls` map of `detectParentChild` in iteration (= insertion)
order: sessions with at least one `Task` call, each with its call
timestamps. -/
def taskCallsList (sessions : List Session) : List (String × List Int) :=
  sessions.filterMap (fun s =>
    if taskCallTs s = [] then none else some (s.id, taskCallTs s))

/-- `childStart = child.lastEventAt - (child.toolCount * 2000)`: the rough
estimate of a child session's start time. -/
def estimatedStart (child : Session) : Int :=
  child.lastEventAt - (child.toolCount : Int) * 2000

/-- `Math.abs(callTs - childStart) < 5000`: the 5 s matching tolerance. -/
def withinWindow (child : Session) (callTs : Int) : Bool :=
  decide ((callTs - estimatedStart child).natAbs < 5000)

/-- The inner loops of `detectParentChild` for one child: iterate the
`taskCalls` entries in order, skip the child's own id, and stop at the
first entry one of whose call timestamps is within the tolerance of the
child's estimated start. -/
def findParentFor (child : Session) (taskCalls : List (String × List Int)) :
    Option String :=
  ((taskCalls.filter (fun p => p.1 ≠ child.id)).find? (fun p =>
    p.2.any (withinWindow child))).map (·.1)

/-- One step of the outer loop of `detectParentChild`: a child already
present in the parent map is not re-evaluated; otherwise its first
matching parent, if any, is recorded. -/
def detectParentChildStep (taskCalls : List (String × List Int))
    (pm : List (String × String)) (child : Session) :
    List (String × String) :=
  if pm.any (fun e => e.1 = child.id) then pm
  else
    match findParentFor child taskCalls with
    | some pid => pm ++ [(child.id, pid)]
    | none => pm

/-- `detectParentChild(sessions)` from the relationship resolver: the
child-id → parent-id map, represented as an association list in insertion
order. -/
def detectParentChild (sessions : List Session) : List (String × String) :=
  sessions.foldl (detectParentChildStep (taskCallsList sessions)) []

/-- `Map.get` on the child-id → parent-id result. -/
def parentLookup (pm : List (String × String)) (id : String) :
    Option String :=
  (pm.find? (fun e => e.1 = id)).map (·.2)

/-- The claim's direct description of the heuristic: the first session in
iteration order, other than the child itself, that recorded a `Task` tool
call whose timestamp lies within 5 s of the child's estimated start. -/
def specFirstMatchingParent (sessions : List Session) (child : Session) :
    Option String :=
  (sessions.find? (fun a => decide (a.id ≠ child.id) &&
    a.recentTools.any (fun t =>
      decide (t.toolName = "Task") && withinWindow child t.ts))).map (·.id)

/-- A session's `Task`-call timestamps match the window exactly when one
of its recent tools is a `Task` call in the window. -/
theorem any_taskCallTs (child a : Session) :
    (taskCallTs a).any (withinWindow child) =
      a.recentTools.any (fun t =>
        decide (t.toolName = "Task") && withinWindow child t.ts) := by
  unfold taskCallTs
  induction a.recentTools with
  | nil => rfl
  | cons t rest ih =>
    by_cases ht : t.toolName = "Task"
    · simp [List.filter_cons, ht, ih]
    · simp [List.filter_cons, ht, ih]

/-- The inner loops over the `taskCalls` map find exactly the claim's
first matching parent: sessions without `Task` calls never match, the
child's own entry is skipped, and entry order preserves session order. -/
theorem findParentFor_eq_spec (sessions : List Session) (child : Session) :
    findParentFor child (taskCallsList sessions) =
      specFirstMatchingParent sessions child := by
  induction sessions with
  | nil => rfl
  | cons a rest ih =>
    by_cases hempty : taskCallTs a = []
    · have h1 : taskCallsList (a :: rest) = taskCallsList rest := by
        unfold taskCallsList
        rw [List.filterMap_cons, if_pos hempty]
      have hany : a.recentTools.any (fun t =>
          decide (t.toolName = "Task") && withinWindow child t.ts) = false := by
        rw [← any_taskCallTs child a, hempty]
        rfl
      have h2 : specFirstMatchingParent (a :: rest) child =
          specFirstMatchingParent rest child := by
        unfold specFirstMatchingParent
        rw [List.find?_cons_of_neg]
        simp [hany]
      rw [h1, h2]
      exact ih
    · have h1 : taskCallsList (a :: rest) =
          (a.id, taskCallTs a) :: taskCallsList rest := by
        unfold taskCallsList
        rw [List.filterMap_cons, if_neg hempty]
      rw [h1]
      by_cases hid : a.id = child.id
      · have h2 : findParentFor child ((a.id, taskCallTs a) :: taskCallsList rest) =
            findParentFor child (taskCallsList rest) := by
          unfold findParentFor
          rw [List.filter_cons_of_neg]
          simp [hid]
        have h3 : specFirstMatchingParent (a :: rest) child =
            specFirstMatchingParent rest child := by
          unfold specFirstMatchingParent
          rw [List.find?_cons_of_neg]
          simp [hid]
        rw [h2, h3]
        exact ih
      · by_cases hmatch : (taskCallTs a).any (withinWindow child) = true
        · have h2 : findParentFor child
              ((a.id, taskCallTs a) :: taskCallsList rest) = some a.id := by
            unfold findParentFor
            rw [List.filter_cons_of_pos (by simp [hid]), List.find?_cons_of_pos]
            · rfl
            · exact hmatch
          have h3 : specFirstMatchingParent (a :: rest) child = some a.id := by
            unfold specFirstMatchingParent
            rw [List.find?_cons_of_pos]
            · rfl
            · rw [← any_taskCallTs child a]
              simp [hid, hmatch]
          rw [h2, h3]
        · have h2 : findParentFor child
              ((a.id, taskCallTs a) :: taskCallsList rest) =
              findParentFor child (taskCallsList rest) := by
            unfold findParentFor
            rw [List.filter_cons_of_pos (by simp [hid]), List.find?_cons_of_neg]
            simpa using hmatch
          have h3 : specFirstMatchingParent (a :: rest) child =
              specFirstMatchingParent rest child := by
            unfold specFirstMatchingParent
            rw [List.find?_cons_of_neg]
            rw [← any_taskCallTs child a] at *
            simp only [Bool.and_eq_true, not_and, Bool.not_eq_true]
            intro _
            simpa using hmatch
          rw [h2, h3]
          exact ih

/-- Appending an entry with a different key does not change a lookup. -/
theorem parentLookup_append_single (pm : List (String × String))
    (c pid x : String) (h : c ≠ x) :
    parentLookup (pm ++ [(c, pid)]) x = parentLookup pm x := by
  unfold parentLookup
  induction pm with
  | nil => simp [List.find?, h]
  | cons e pm ih =>
    simp only [List.cons_append, List.find?]
    cases hpe : (decide (e.1 = x)) with
    | true => rfl
    | false => exact ih

/-- Folding the per-child step over sessions whose ids avoid `x` leaves
the lookup of `x` unchanged. -/
theorem parentLookup_foldl_not_mem (tc : List (String × List Int))
    (l : List Session) (pm : List (String × String)) (x : String)
    (hx : x ∉ l.map (·.id)) :
    parentLookup (l.foldl (detectParentChildStep tc) pm) x =
      parentLookup pm x := by
  induction l generalizing pm with
  | nil => rfl
  | cons b rest ih =>
    simp only [List.map_cons, List.mem_cons, not_or] at hx
    simp only [List.foldl_cons]
    rw [ih _ (by simpa using hx.2)]
    unfold detectParentChildStep
    by_cases hc : pm.any (fun e => e.1 = b.id)
    · rw [if_pos hc]
    · rw [if_neg hc]
      cases hfp : findParentFor b tc with
      | none => rfl
      | some pid =>
        exact parentLookup_append_single pm b.id pid x fun he => hx.1 he.symm

/-- Appending a fresh key binds it. -/
theorem parentLookup_append_self (pm : List (String × String)) (k v : String)
    (h : ∀ e ∈ pm, e.1 ≠ k) :
    parentLookup (pm ++ [(k, v)]) k = some v := by
  unfold parentLookup
  induction pm with
  | nil => simp [List.find?]
  | cons e pm ih =>
    simp only [List.cons_append, List.find?]
    have hpe : (decide (e.1 = k)) = false := by
      simp [h e (List.mem_cons_self e pm)]
    rw [hpe]
    exact ih fun e' he' => h e' (List.mem_cons_of_mem e he')

/-- A key absent from an association list looks up to nothing. -/
theorem parentLookup_none_of_no_key (pm : List (String × String)) (k : String)
    (h : ∀ e ∈ pm, e.1 ≠ k) :
    parentLookup pm k = none := by
  unfold parentLookup
  induction pm with
  | nil => rfl
  | cons e pm ih =>
    simp only [List.find?]
    have hpe : (decide (e.1 = k)) = false := by
      simp [h e (List.mem_cons_self e pm)]
    rw [hpe]
    exact ih fun e' he' => h e' (List.mem_cons_of_mem e he')

/-- Invariant of the outer loop of `detectParentChild`: starting from a
parent map whose keys avoid the remaining sessions' (duplicate-free) ids,
each remaining child ends up bound to exactly its first matching parent. -/
theorem detectParentChild_foldl_lookup (tc : List (String × List Int))
    (l : List Session) (pm0 : List (String × String)) (child : Session)
    (hnd : (l.map (·.id)).Nodup)
    (hdis : ∀ e ∈ pm0, e.1 ∉ l.map (·.id))
    (hmem : child ∈ l) :
    parentLookup (l.foldl (detectParentChildStep tc) pm0) child.id =
      findParentFor child tc := by
  induction l generalizing pm0 with
  | nil => cases hmem
  | cons a rest ih =>
    simp only [List.map_cons, List.nodup_cons] at hnd
    have hnokey : pm0.any (fun e => e.1 = a.id) = false := by
      rw [List.any_eq_false]
      intro e he
      have := hdis e he
      simp only [List.map_cons, List.mem_cons, not_or] at this
      simp [this.1]
    simp only [List.foldl_cons]
    rcases List.mem_cons.mp hmem with rfl | hmem'
    · rw [parentLookup_foldl_not_mem tc rest _ child.id hnd.1]
      unfold detectParentChildStep
      rw [hnokey]
      simp only [Bool.false_eq_true, if_false]
      have hfresh : ∀ e ∈ pm0, e.1 ≠ child.id := by
        intro e he
        have := hdis e he
        simp only [List.map_cons, List.mem_cons, not_or] at this
        exact this.1
      cases hfp : findParentFor child tc with
      | none => exact parentLookup_none_of_no_key pm0 child.id hfresh
      | some pid => exact parentLookup_append_self pm0 child.id pid hfresh
    · refine ih _ hnd.2 ?_ hmem'
      intro e he
      unfold detectParentChildStep at he
      rw [hnokey] at he
      simp only [Bool.false_eq_true, if_false] at he
      cases hfp : findParentFor a tc with
      | none =>
        rw [hfp] at he
        have := hdis e he
        simp only [List.map_cons, List.mem_cons, not_or] at this
        exact this.2
      | some pid =>
        rw [hfp] at he
        rcases List.mem_append.mp he with he' | he'
        · have := hdis e he'
          simp only [List.map_cons, List.mem_cons, not_or] at this
          exact this.2
        · simp only [List.mem_singleton] at he'
          subst he'
          exact hnd.1

/-- C9 -- For sessions with pairwise distinct ids, `detectParentChild`
binds a child session's id exactly to the claim's first matching parent:
the first session in iteration order, other than the child itself, that
recorded a `Task` (sub-agent spawn) tool call whose timestamp lies within
5 s of the child's estimated start
`lastEventAt - toolCount * 2000`; a child bound once is never rebound
(no entry for an unmatched child, and the first match wins). -/
theorem detectParentChild_first_match (sessions : List Session)
    (child : Session) (hnd : (sessions.map (·.id)).Nodup)
    (hmem : child ∈ sessions) :
    parentLookup (detectParentChild sessions) child.id =
      specFirstMatchingParent sessions child := by
  unfold detectParentChild
  rw [detectParentChild_foldl_lookup (taskCallsList sessions) sessions []
    child hnd (by simp) hmem]
  exact findParentFor_eq_spec sessions child

/-- Parent session of the C9 witness: recorded a `Task` call at t = 10000. -/
def c9Parent : Session :=
  { id := "p", name := "parent", cwd := some "/p", model := some "m",
    status := "active", lastTool := some "Task explore",
    recentTools := [{ toolName := "Task", toolSummary := "explore",
                      toolDetail := "", ts := 10000 }],
    lastEventAt := 10000, toolCount := 1 }

/-- Child session of the C9 witness: estimated start
`14000 - 2 * 2000 = 10000`, matching the parent's `Task` call exactly. -/
def c9Child : Session :=
  { id := "c", name := "child", cwd := some "/p", model := some "m",
    status := "active", lastTool := some "Read file",
    recentTools := [{ toolName := "Read", toolSummary := "file",
                      toolDetail := "", ts := 14000 }],
    lastEventAt := 14000, toolCount := 2 }

/-- Witness for `detectParentChild_first_match`: in the concrete
two-session set the child is bound to the parent whose `Task` call is
within the 5 s window of its estimated start. -/
theorem detectParentChild_first_match_witness :
    parentLookup (detectParentChild [c9Parent, c9Child]) "c" = some "p" := by
  have h := detectParentChild_first_match [c9Parent, c9Child] c9Child
    (by decide) (by decide)
  exact h.trans (by decide)
